import Mathlib

/-!
# Verification of the weblin goroutine supervision engine

Shallow embedding of the `goroutine` package (files `goroutine.go` /
`wait.go` of github.com/meloncoffee/weblin): the `GoroutineManager`
registry with its operations `AddTask`, `RemoveTask`, `StartAll`,
`StopAll`, `Start`, `Stop`, the bounded wait `WaitGroupWithTimeout`,
and the deferred recover wrapper installed around every launched task.

Modelling decisions, each tied to the Go source:
* Every registry operation holds `gm.mu` for its whole duration, so the
  operations serialize; each is embedded as a pure state transition on
  a `GoroutineManager` value.
* `sync.WaitGroup` counters are `Nat` fields.  Whether a bounded wait
  sees the counter reach zero before its deadline depends on
  concurrently running goroutines, so it is abstracted by a Boolean
  oracle argument `reachesZero` passed to the operation.
* `context.Context` values form a tree: the manager owns the root
  (`parentCtx`) and every task's `childCtx` is derived from it by
  `context.WithCancel`.  A context is modelled by a cancellation flag;
  a child context observes cancellation when its own flag or the
  root's flag is set (`taskCtxDone`).
* `time.Duration` is an `Int` (nanoseconds); the code only compares it
  with zero.
* The work function `func(ctx context.Context)` is stored but never
  called by the registry operations; it is kept as an opaque handle.
  The behaviour of a launched goroutine (the recover wrapper around
  the work function) is modelled separately by `runTaskWrapper`, as a
  trace of observable events, parameterized by whether the work
  function panics, whether `gm.PanicHandler` is non-nil, and whether
  the handler itself panics when invoked.
* `StartAll` and `Start` additionally return a trace of
  `StartEvent`s recording the order of the two `WaitGroup.Add(1)`
  calls and of the `go` statement for each task; launching is an
  event, the task body does not run inside the operation.
* Errors built with `fmt.Errorf` are modelled by the tag (`notFound`
  with the offending name, or `timeoutErr`); a `nil` error is `none`.
-/

namespace Weblin.Goroutine

/-- The `WaitError` result type of the `goroutine` package:
`WaitSuccess`, `WaitTimeout`, `WaitInvalidParam` (iota order). -/
inductive WaitError where
  | waitSuccess
  | waitTimeout
  | waitInvalidParam
deriving DecidableEq, Repr

/-- `WaitGroupWithTimeout(wg, timeout)` from `wait.go`.  `wg` is the
wait-group reference: `none` models a nil pointer, `some c` a live
wait group whose counter is `c` (the code never reads the counter, it
only blocks on it).  `reachesZero` abstracts the environment: whether
the counter reaches zero before the `time.After(timeout)` deadline
fires.  For `timeout < 0` the code calls `wg.Wait()` with no deadline
and returns `WaitSuccess` once the counter has reached zero. -/
def WaitGroupWithTimeout (wg : Option Nat) (timeout : Int) (reachesZero : Bool) : WaitError :=
  match wg with
  | none => .waitInvalidParam
  | some _ =>
    if timeout < 0 then
      .waitSuccess
    else if reachesZero then
      .waitSuccess
    else
      .waitTimeout

/-- Opaque handle for a registered work function `func(ctx context.Context)`. -/
abbrev WorkFn := Nat

/-- `taskWrapper`: per-task state.  `childWG` is the private
`sync.WaitGroup` counter, `childCanceled` records whether
`childCancel()` has been called on the task's context, `task` is the
stored work function. -/
structure TaskWrapper where
  childWG : Nat
  childCanceled : Bool
  task : WorkFn
deriving DecidableEq, Repr

/-- `GoroutineManager`: `parentWG` is the root `sync.WaitGroup`
counter, `parentCanceled` records whether `parentCancel()` has been
called on the root context, `tasks` is the registry map (an
association list with pairwise-distinct keys, mirroring
`map[string]*taskWrapper`).  The mutex is implicit (operations are
atomic transitions) and `PanicHandler` is modelled at the wrapper
(`runTaskWrapper`), since no registry operation reads it. -/
structure GoroutineManager where
  parentWG : Nat
  parentCanceled : Bool
  tasks : List (String × TaskWrapper)
deriving DecidableEq, Repr

/-- `NewGoroutineManager()`: fresh root context (not canceled), zero
root counter, empty registry. -/
def NewGoroutineManager : GoroutineManager :=
  { parentWG := 0, parentCanceled := false, tasks := [] }

/-- Map lookup `gm.tasks[name]` on the association list. -/
def lookupTask : List (String × TaskWrapper) → String → Option TaskWrapper
  | [], _ => none
  | (k, v) :: rest, n => if k = n then some v else lookupTask rest n

/-- Map assignment `gm.tasks[name] = v`: replaces an existing entry in
place, otherwise appends. -/
def insertTask : List (String × TaskWrapper) → String → TaskWrapper → List (String × TaskWrapper)
  | [], n, v => [(n, v)]
  | (k, w) :: rest, n, v =>
    if k = n then (n, v) :: rest else (k, w) :: insertTask rest n v

/-- Map deletion `delete(gm.tasks, name)`. -/
def eraseTask : List (String × TaskWrapper) → String → List (String × TaskWrapper)
  | [], _ => []
  | (k, w) :: rest, n => if k = n then rest else (k, w) :: eraseTask rest n

/-- Whether a task's `childCtx.Done()` channel is closed: the child
context was created by `context.WithCancel(gm.parentCtx)`, so it
observes its own cancellation or the root's. -/
def taskCtxDone (gm : GoroutineManager) (t : TaskWrapper) : Bool :=
  t.childCanceled || gm.parentCanceled

/-- Tagged model of the `error` values the operations return. -/
inductive GmError where
  | timeoutErr
  | notFound (name : String)
deriving DecidableEq, Repr

/-- Observable events of `StartAll`/`Start`: the root
`parentWG.Add(1)`, the private `childWG.Add(1)`, and the `go`
statement launching the task's goroutine. -/
inductive StartEvent where
  | incParent (name : String)
  | incChild (name : String)
  | launch (name : String)
deriving DecidableEq, Repr

/-- The task a start event belongs to. -/
def StartEvent.name : StartEvent → String
  | .incParent n => n
  | .incChild n => n
  | .launch n => n

/-- The events of one task's launch in source order:
`gm.parentWG.Add(1)`, `t.childWG.Add(1)`, `go func...`. -/
def startTaskEvents (name : String) : List StartEvent :=
  [.incParent name, .incChild name, .launch name]

/-- The events of a trace belonging to one task. -/
def eventsFor (n : String) (evs : List StartEvent) : List StartEvent :=
  evs.filter (fun e => e.name == n)

/-- `AddTask(name, task)`: creates a fresh child context of the root
(`context.WithCancel(gm.parentCtx)`, hence `childCanceled := false`),
a zero private wait-group counter, stores the work function under the
name (overwriting any existing entry), and launches nothing (the
returned event trace is empty). -/
def AddTask (gm : GoroutineManager) (name : String) (task : WorkFn) :
    GoroutineManager × List StartEvent :=
  ({ gm with tasks := insertTask gm.tasks name ⟨0, false, task⟩ }, [])

/-- The loop body of `StartAll` over the registry: returns the updated
registry (every counter incremented), the number of root increments,
and the event trace. -/
def startAllLoop : List (String × TaskWrapper) →
    List (String × TaskWrapper) × Nat × List StartEvent
  | [] => ([], 0, [])
  | (n, t) :: rest =>
    let r := startAllLoop rest
    ((n, { t with childWG := t.childWG + 1 }) :: r.1, r.2.1 + 1, startTaskEvents n ++ r.2.2)

/-- `StartAll()`: for every registered task, `parentWG.Add(1)` then
`t.childWG.Add(1)` then launch one goroutine for it. -/
def StartAll (gm : GoroutineManager) : GoroutineManager × List StartEvent :=
  let r := startAllLoop gm.tasks
  ({ gm with parentWG := gm.parentWG + r.2.1, tasks := r.1 }, r.2.2)

/-- `Start(name)`: `NotFound` error if the name is unregistered,
otherwise the same increment-then-launch sequence as `StartAll` for
that one task. -/
def Start (gm : GoroutineManager) (name : String) :
    GoroutineManager × List StartEvent × Option GmError :=
  match lookupTask gm.tasks name with
  | none => (gm, [], some (.notFound name))
  | some t =>
    ({ gm with
        parentWG := gm.parentWG + 1,
        tasks := insertTask gm.tasks name { t with childWG := t.childWG + 1 } },
      startTaskEvents name, none)

/-- `Stop(name, timeout)`: if registered, `t.childCancel()` then
`WaitGroupWithTimeout(&t.childWG, timeout)`; a timeout yields an
error, the entry always stays in the registry.  Unregistered names
return `nil` with no state change. -/
def Stop (gm : GoroutineManager) (name : String) (timeout : Int) (reachesZero : Bool) :
    GoroutineManager × Option GmError :=
  match lookupTask gm.tasks name with
  | none => (gm, none)
  | some t =>
    let gm' := { gm with tasks := insertTask gm.tasks name { t with childCanceled := true } }
    if WaitGroupWithTimeout (some t.childWG) timeout reachesZero = .waitSuccess then
      (gm', none)
    else
      (gm', some .timeoutErr)

/-- `RemoveTask(name, timeout)`: like `Stop` but on a successful wait
the entry is deleted from the registry; on timeout the (canceled)
entry remains and an error is returned.  Unregistered names return
`nil` with no state change and no callback invocation (the source
contains no handler call). -/
def RemoveTask (gm : GoroutineManager) (name : String) (timeout : Int) (reachesZero : Bool) :
    GoroutineManager × Option GmError :=
  match lookupTask gm.tasks name with
  | none => (gm, none)
  | some t =>
    let canceled := insertTask gm.tasks name { t with childCanceled := true }
    if WaitGroupWithTimeout (some t.childWG) timeout reachesZero = .waitSuccess then
      ({ gm with tasks := eraseTask canceled name }, none)
    else
      ({ gm with tasks := canceled }, some .timeoutErr)

/-- `StopAll(timeout)`: `gm.parentCancel()` then
`WaitGroupWithTimeout(&gm.parentWG, timeout)`; a timeout yields an
error.  The registry itself is not touched. -/
def StopAll (gm : GoroutineManager) (timeout : Int) (reachesZero : Bool) :
    GoroutineManager × Option GmError :=
  let gm' := { gm with parentCanceled := true }
  if WaitGroupWithTimeout (some gm'.parentWG) timeout reachesZero = .waitSuccess then
    (gm', none)
  else
    (gm', some .timeoutErr)

/-- Observable events of one launched goroutine: the wrapper invoking
`gm.PanicHandler(err)`, `tw.childWG.Done()`, `gm.parentWG.Done()`,
and a panic propagating out of the goroutine (which in Go terminates
the whole process). -/
inductive WrapperEvent where
  | callHandler
  | childDone
  | parentDone
  | panicEscape
deriving DecidableEq, Repr

/-- The goroutine body `StartAll`/`Start` launch: run the work
function under a deferred function that recovers a panic, invokes
`gm.PanicHandler` when non-nil, then calls both `Done()`s.
Transliterated from the Go control flow:
* no panic in the work function: `recover()` is nil, both `Done()`s run;
* the work function panics and no handler is set: the panic is
  recovered and discarded, both `Done()`s run;
* the work function panics and the handler returns normally: the
  handler runs once, then both `Done()`s run;
* the work function panics and the handler itself panics: the
  deferred function is aborted before either `Done()`, there is no
  further `recover`, and the new panic escapes the goroutine.
`handlerSet`: `gm.PanicHandler != nil`; `handlerPanics`: whether the
installed handler panics when invoked; `taskPanics`: whether the work
function panics. -/
def runTaskWrapper (handlerSet handlerPanics taskPanics : Bool) : List WrapperEvent :=
  if taskPanics then
    if handlerSet then
      if handlerPanics then
        [.callHandler, .panicEscape]
      else
        [.callHandler, .childDone, .parentDone]
    else
      [.childDone, .parentDone]
  else
    [.childDone, .parentDone]

/-- A concrete manager used to instantiate the theorems: two
registered tasks, nothing started, nothing canceled. -/
def gmSample : GoroutineManager :=
  { parentWG := 0, parentCanceled := false,
    tasks := [("a", ⟨0, false, 1⟩), ("b", ⟨0, false, 2⟩)] }

theorem lookupTask_insertTask_self (l : List (String × TaskWrapper)) (n : String)
    (v : TaskWrapper) : lookupTask (insertTask l n v) n = some v := by
  induction l with
  | nil => simp [insertTask, lookupTask]
  | cons p rest ih =>
    obtain ⟨k, w⟩ := p
    by_cases h : k = n <;> simp [insertTask, lookupTask, h, ih]

theorem lookupTask_insertTask_ne (l : List (String × TaskWrapper)) (n m : String)
    (v : TaskWrapper) (h : m ≠ n) :
    lookupTask (insertTask l n v) m = lookupTask l m := by
  induction l with
  | nil => simp [insertTask, lookupTask, Ne.symm h]
  | cons p rest ih =>
    obtain ⟨k, w⟩ := p
    by_cases hk : k = n
    · subst hk
      simp [insertTask, lookupTask, Ne.symm h]
    · simp only [insertTask, if_neg hk]
      by_cases hm : k = m <;> simp [lookupTask, hm, ih]

theorem lookupTask_eraseTask_ne (l : List (String × TaskWrapper)) (n m : String)
    (h : m ≠ n) : lookupTask (eraseTask l n) m = lookupTask l m := by
  induction l with
  | nil => simp [eraseTask]
  | cons p rest ih =>
    obtain ⟨k, w⟩ := p
    by_cases hk : k = n
    · subst hk
      simp [eraseTask, lookupTask, Ne.symm h]
    · simp only [eraseTask, if_neg hk]
      by_cases hm : k = m <;> simp [lookupTask, hm, ih]

theorem lookupTask_eq_none_iff (l : List (String × TaskWrapper)) (n : String) :
    lookupTask l n = none ↔ n ∉ l.map Prod.fst := by
  induction l with
  | nil => simp [lookupTask]
  | cons p rest ih =>
    obtain ⟨k, w⟩ := p
    by_cases hk : k = n
    · simp [lookupTask, hk]
    · simp [lookupTask, hk, ih, Ne.symm hk]

theorem mem_keys_insertTask (l : List (String × TaskWrapper)) (n m : String)
    (v : TaskWrapper) :
    m ∈ (insertTask l n v).map Prod.fst ↔ m ∈ l.map Prod.fst ∨ m = n := by
  induction l with
  | nil => simp [insertTask]
  | cons p rest ih =>
    obtain ⟨k, w⟩ := p
    by_cases hk : k = n
    · subst hk
      by_cases hm : m = k <;> simp [insertTask, hm]
    · simp [insertTask, hk, ih, or_assoc]

theorem keys_nodup_insertTask (l : List (String × TaskWrapper)) (n : String)
    (v : TaskWrapper) (h : (l.map Prod.fst).Nodup) :
    ((insertTask l n v).map Prod.fst).Nodup := by
  induction l with
  | nil => simp [insertTask]
  | cons p rest ih =>
    obtain ⟨k, w⟩ := p
    simp only [List.map_cons, List.nodup_cons] at h
    by_cases hk : k = n
    · subst hk
      simpa [insertTask] using h
    · have := ih h.2
      simp only [insertTask, hk, if_false, List.map_cons, List.nodup_cons]
      refine ⟨?_, this⟩
      rw [mem_keys_insertTask]
      rintro (hmem | rfl)
      · exact h.1 hmem
      · exact hk rfl

theorem lookupTask_eraseTask_self (l : List (String × TaskWrapper)) (n : String)
    (h : (l.map Prod.fst).Nodup) : lookupTask (eraseTask l n) n = none := by
  induction l with
  | nil => simp [eraseTask, lookupTask]
  | cons p rest ih =>
    obtain ⟨k, w⟩ := p
    simp only [List.map_cons, List.nodup_cons] at h
    by_cases hk : k = n
    · subst hk
      simpa [eraseTask, lookupTask_eq_none_iff] using h.1
    · simp [eraseTask, lookupTask, hk, ih h.2]

theorem startAllLoop_lookup (l : List (String × TaskWrapper)) (n : String) :
    lookupTask (startAllLoop l).1 n =
      (lookupTask l n).map (fun t => { t with childWG := t.childWG + 1 }) := by
  induction l with
  | nil => simp [startAllLoop, lookupTask]
  | cons p rest ih =>
    obtain ⟨k, t⟩ := p
    by_cases hk : k = n <;> simp [startAllLoop, lookupTask, hk, ih]

theorem eventsFor_startTaskEvents (m n : String) :
    eventsFor n (startTaskEvents m) = if m = n then startTaskEvents m else [] := by
  by_cases h : m = n
  · simp [eventsFor, startTaskEvents, StartEvent.name, h]
  · have hb : (m == n) = false := beq_eq_false_iff_ne.mpr h
    simp [eventsFor, startTaskEvents, StartEvent.name, h, hb]

theorem eventsFor_append (n : String) (l₁ l₂ : List StartEvent) :
    eventsFor n (l₁ ++ l₂) = eventsFor n l₁ ++ eventsFor n l₂ := by
  simp [eventsFor, List.filter_append]

theorem eventsFor_startAllLoop_not_mem (l : List (String × TaskWrapper)) (n : String)
    (h : n ∉ l.map Prod.fst) : eventsFor n (startAllLoop l).2.2 = [] := by
  induction l with
  | nil => simp [startAllLoop, eventsFor]
  | cons p rest ih =>
    obtain ⟨k, t⟩ := p
    simp only [List.map_cons, List.mem_cons, not_or] at h
    have hk : k ≠ n := fun hh => h.1 hh.symm
    simp [startAllLoop, eventsFor_append, eventsFor_startTaskEvents, hk, ih h.2]

theorem eventsFor_startAllLoop (l : List (String × TaskWrapper)) (n : String)
    (t : TaskWrapper) (hnd : (l.map Prod.fst).Nodup) (h : lookupTask l n = some t) :
    eventsFor n (startAllLoop l).2.2 = startTaskEvents n := by
  induction l with
  | nil => simp [lookupTask] at h
  | cons p rest ih =>
    obtain ⟨k, w⟩ := p
    simp only [List.map_cons, List.nodup_cons] at hnd
    by_cases hk : k = n
    · subst hk
      have hrest : eventsFor k (startAllLoop rest).2.2 = [] :=
        eventsFor_startAllLoop_not_mem rest k hnd.1
      simp [startAllLoop, eventsFor_append, eventsFor_startTaskEvents, hrest]
    · simp only [lookupTask, if_neg hk] at h
      simp [startAllLoop, eventsFor_append, eventsFor_startTaskEvents, hk,
        ih hnd.2 h]

/-- Claim C1, counterexample.  With a failure callback installed that
itself panics while handling a task panic, the wrapper does not
decrement either barrier and the second panic escapes the goroutine
(terminating the process), so the claim as stated fails at this
concrete input. -/
theorem wrapper_handler_panic_skips_done :
    (runTaskWrapper true true true).count .childDone = 0 ∧
    (runTaskWrapper true true true).count .parentDone = 0 ∧
    (runTaskWrapper true true true).count .panicEscape = 1 := by decide

/-- Claim C1, amended: for every task whose work function panics after
being launched by `StartAll` or `Start`, provided the installed
failure callback (when one is set) itself returns normally, the
wrapper recovers the panic so it never terminates the process, invokes
the callback exactly once before either barrier is decremented, and
then decrements both the private and the root join barrier exactly
once. -/
theorem wrapper_recovers_task_panic (handlerSet : Bool) :
    (runTaskWrapper handlerSet false true).count .panicEscape = 0 ∧
    (runTaskWrapper handlerSet false true).count .callHandler =
      (if handlerSet then 1 else 0) ∧
    (runTaskWrapper handlerSet false true).count .childDone = 1 ∧
    (runTaskWrapper handlerSet false true).count .parentDone = 1 ∧
    runTaskWrapper handlerSet false true =
      (if handlerSet then [.callHandler, .childDone, .parentDone]
       else [.childDone, .parentDone]) := by
  cases handlerSet <;> decide

/-- Claim C2, counterexample.  When the installed failure callback
panics while handling a task failure, the failure does escape the
wrapper instead of being swallowed: the trace ends in a panic escaping
the goroutine and the barrier decrements do not occur. -/
theorem wrapper_handler_panic_escapes :
    runTaskWrapper true true true = [.callHandler, .panicEscape] ∧
    ¬ (runTaskWrapper true true true).count .childDone = 1 := by decide

/-- Claim C2, amended: a panic escapes the wrapper exactly when the
work function panics, a failure callback is set, and the callback
itself panics while handling the failure; in that case neither barrier
is decremented.  In every other case nothing escapes and both barriers
are decremented exactly once. -/
theorem wrapper_escape_characterization (hs hp tp : Bool) :
    ((runTaskWrapper hs hp tp).count .panicEscape =
      (if tp && hs && hp then 1 else 0)) ∧
    ((tp && hs && hp) = true →
      runTaskWrapper hs hp tp = [.callHandler, .panicEscape]) ∧
    ((tp && hs && hp) = false →
      (runTaskWrapper hs hp tp).count .childDone = 1 ∧
      (runTaskWrapper hs hp tp).count .parentDone = 1 ∧
      (runTaskWrapper hs hp tp).count .panicEscape = 0) := by
  cases hs <;> cases hp <;> cases tp <;> decide

/-- Claim C6: `WaitGroupWithTimeout` returns exactly one of Success,
Timeout, InvalidParam; InvalidParam exactly for an absent (nil)
wait-group reference; for a live wait group a negative timeout always
ends in Success (the deadline-free wait), and with a non-negative
timeout the result is Success exactly when the counter reaches zero
before the deadline and Timeout exactly when the deadline fires
first. -/
theorem waitGroupWithTimeout_contract (wg : Option Nat) (timeout : Int)
    (reachesZero : Bool) :
    (WaitGroupWithTimeout wg timeout reachesZero = .waitSuccess ∨
      WaitGroupWithTimeout wg timeout reachesZero = .waitTimeout ∨
      WaitGroupWithTimeout wg timeout reachesZero = .waitInvalidParam) ∧
    (WaitGroupWithTimeout wg timeout reachesZero = .waitInvalidParam ↔ wg = none) ∧
    (wg ≠ none → timeout < 0 →
      WaitGroupWithTimeout wg timeout reachesZero = .waitSuccess) ∧
    (wg ≠ none → 0 ≤ timeout →
      ((WaitGroupWithTimeout wg timeout reachesZero = .waitSuccess ↔
          reachesZero = true) ∧
       (WaitGroupWithTimeout wg timeout reachesZero = .waitTimeout ↔
          reachesZero = false))) := by
  cases wg with
  | none => simp [WaitGroupWithTimeout]
  | some c =>
    by_cases ht : timeout < 0
    · exact ⟨Or.inl (by simp [WaitGroupWithTimeout, ht]),
        by simp [WaitGroupWithTimeout, ht],
        fun _ _ => by simp [WaitGroupWithTimeout, ht],
        fun _ h0 => absurd ht (by omega)⟩
    · cases reachesZero
      · exact ⟨Or.inr (Or.inl (by simp [WaitGroupWithTimeout, ht])),
          by simp [WaitGroupWithTimeout, ht],
          fun _ hlt => absurd hlt ht,
          fun _ _ => by simp [WaitGroupWithTimeout, ht]⟩
      · exact ⟨Or.inl (by simp [WaitGroupWithTimeout, ht]),
          by simp [WaitGroupWithTimeout, ht],
          fun _ hlt => absurd hlt ht,
          fun _ _ => by simp [WaitGroupWithTimeout, ht]⟩

/-- Claim C8: `AddTask(name, f)` launches nothing (empty event trace,
root counter and root cancellation untouched), stores under the name a
fresh wrapper holding `f`, a zero private counter and an un-canceled
scope that is a child of the root (its cancellation handle reports
exactly the root's cancellation state), overwriting any existing entry
under that name, and leaves every other entry unchanged. -/
theorem addTask_contract (gm : GoroutineManager) (n : String) (f : WorkFn) :
    (AddTask gm n f).2 = [] ∧
    lookupTask (AddTask gm n f).1.tasks n = some ⟨0, false, f⟩ ∧
    (∀ m, m ≠ n → lookupTask (AddTask gm n f).1.tasks m = lookupTask gm.tasks m) ∧
    (AddTask gm n f).1.parentWG = gm.parentWG ∧
    (AddTask gm n f).1.parentCanceled = gm.parentCanceled ∧
    taskCtxDone (AddTask gm n f).1 ⟨0, false, f⟩ = gm.parentCanceled := by
  exact ⟨rfl, lookupTask_insertTask_self gm.tasks n ⟨0, false, f⟩,
    fun m hm => lookupTask_insertTask_ne gm.tasks n m ⟨0, false, f⟩ hm,
    rfl, rfl, rfl⟩

/-- Claim C9: `Start(name)` on an unregistered name returns a NotFound
error, launches nothing and changes nothing; on a registered name it
performs exactly the per-task increment-then-launch sequence of
`StartAll` (root increment, private increment, then launch), leaves
every other entry unchanged, and returns success. -/
theorem start_contract (gm : GoroutineManager) (n : String) :
    (lookupTask gm.tasks n = none → Start gm n = (gm, [], some (.notFound n))) ∧
    (∀ t, lookupTask gm.tasks n = some t →
      (Start gm n).2.2 = none ∧
      (Start gm n).2.1 = startTaskEvents n ∧
      (Start gm n).1.parentWG = gm.parentWG + 1 ∧
      lookupTask (Start gm n).1.tasks n = some { t with childWG := t.childWG + 1 } ∧
      (∀ m, m ≠ n → lookupTask (Start gm n).1.tasks m = lookupTask gm.tasks m)) := by
  constructor
  · intro h
    simp [Start, h]
  · intro t ht
    refine ⟨by simp [Start, ht], by simp [Start, ht], by simp [Start, ht], ?_, ?_⟩
    · simp [Start, ht, lookupTask_insertTask_self]
    · intro m hm
      simp [Start, ht, lookupTask_insertTask_ne gm.tasks n m _ hm]

/-- Claim C3: for every task registered when `StartAll` runs, the trace
of `StartAll` restricted to that task is exactly root-increment,
private-increment, launch — both barrier increments strictly precede
the launch of its execution context — and immediately after `StartAll`
returns (before any task body has run) the task's private join barrier
counter is non-zero. -/
theorem startAll_increment_before_launch (gm : GoroutineManager)
    (hnd : (gm.tasks.map Prod.fst).Nodup) (n : String) (t : TaskWrapper)
    (ht : lookupTask gm.tasks n = some t) :
    eventsFor n (StartAll gm).2 = startTaskEvents n ∧
    lookupTask (StartAll gm).1.tasks n = some { t with childWG := t.childWG + 1 } ∧
    (∀ t', lookupTask (StartAll gm).1.tasks n = some t' → 0 < t'.childWG) := by
  have h1 : (StartAll gm).2 = (startAllLoop gm.tasks).2.2 := rfl
  have h2 : (StartAll gm).1.tasks = (startAllLoop gm.tasks).1 := rfl
  refine ⟨?_, ?_, ?_⟩
  · rw [h1]
    exact eventsFor_startAllLoop gm.tasks n t hnd ht
  · rw [h2, startAllLoop_lookup, ht]
    rfl
  · intro t' ht'
    rw [h2, startAllLoop_lookup, ht] at ht'
    obtain rfl : ({ t with childWG := t.childWG + 1 } : TaskWrapper) = t' := by
      simpa using ht'
    exact Nat.succ_pos _

/-- Witness for C3 at a concrete two-task manager. -/
theorem startAll_increment_before_launch_witness :
    eventsFor "a" (StartAll gmSample).2 = startTaskEvents "a" :=
  (startAll_increment_before_launch gmSample (by decide) "a" ⟨0, false, 1⟩
    (by decide)).1

/-- Claim C4: `StopAll` cancels the root scope, and because every
task's context is a child of the root, every task still registered
afterwards has a cancellation handle that reports canceled even though
its own scope was never canceled directly (the registry itself is left
untouched by `StopAll`). -/
theorem stopAll_cancels_descendants (gm : GoroutineManager) (timeout : Int)
    (reachesZero : Bool) (n : String) (t : TaskWrapper)
    (ht : lookupTask (StopAll gm timeout reachesZero).1.tasks n = some t) :
    taskCtxDone (StopAll gm timeout reachesZero).1 t = true ∧
    (StopAll gm timeout reachesZero).1.tasks = gm.tasks ∧
    (StopAll gm timeout reachesZero).1.parentCanceled = true := by
  have hfst : (StopAll gm timeout reachesZero).1 =
      { gm with parentCanceled := true } := by
    simp only [StopAll]
    split <;> rfl
  refine ⟨?_, by rw [hfst], by rw [hfst]⟩
  rw [hfst]
  simp [taskCtxDone]

/-- Witness for C4: task "b" of the sample manager (never canceled
directly) reports canceled after `StopAll`. -/
theorem stopAll_cancels_descendants_witness :
    taskCtxDone (StopAll gmSample 5 true).1 ⟨0, false, 2⟩ = true :=
  (stopAll_cancels_descendants gmSample 5 true "b" ⟨0, false, 2⟩ (by decide)).1

/-- Claim C5: `RemoveTask(name, timeout)` on a registered name cancels
the task's scope and waits on its private barrier bounded by the
timeout; it returns success exactly when that wait succeeds, in which
case the entry is deleted; on timeout it returns an error and the
entry remains, its scope canceled.  On an unregistered name it returns
success with no state change (and the source invokes no callback). -/
theorem removeTask_contract (gm : GoroutineManager) (n : String) (timeout : Int)
    (reachesZero : Bool) (hnd : (gm.tasks.map Prod.fst).Nodup) :
    (lookupTask gm.tasks n = none →
      RemoveTask gm n timeout reachesZero = (gm, none)) ∧
    (∀ t, lookupTask gm.tasks n = some t →
      ((RemoveTask gm n timeout reachesZero).2 = none ↔
        WaitGroupWithTimeout (some t.childWG) timeout reachesZero = .waitSuccess) ∧
      (WaitGroupWithTimeout (some t.childWG) timeout reachesZero = .waitSuccess →
        lookupTask (RemoveTask gm n timeout reachesZero).1.tasks n = none) ∧
      (WaitGroupWithTimeout (some t.childWG) timeout reachesZero ≠ .waitSuccess →
        (RemoveTask gm n timeout reachesZero).2 = some .timeoutErr ∧
        lookupTask (RemoveTask gm n timeout reachesZero).1.tasks n =
          some { t with childCanceled := true })) := by
  constructor
  · intro h
    simp [RemoveTask, h]
  · intro t ht
    by_cases hw : WaitGroupWithTimeout (some t.childWG) timeout reachesZero = .waitSuccess
    · refine ⟨by simp [RemoveTask, ht, hw], fun _ => ?_, fun hc => absurd hw hc⟩
      have hins := keys_nodup_insertTask gm.tasks n { t with childCanceled := true } hnd
      simp [RemoveTask, ht, hw, lookupTask_eraseTask_self _ n hins]
    · refine ⟨by simp [RemoveTask, ht, hw], fun hs => absurd hs hw, fun _ => ?_⟩
      constructor
      · simp [RemoveTask, ht, hw]
      · simp [RemoveTask, ht, hw, lookupTask_insertTask_self]

/-- Witness for C5: removing the registered, never-started task "a"
succeeds and deletes its entry. -/
theorem removeTask_contract_witness :
    lookupTask (RemoveTask gmSample "a" 5 true).1.tasks "a" = none :=
  ((removeTask_contract gmSample "a" 5 true (by decide)).2 ⟨0, false, 1⟩
    (by decide)).2.1 (by decide)

/-- Claim C7: `Stop(name, timeout)` on a registered name cancels only
that task's scope and waits only on that task's private barrier: the
entry stays registered (with its scope canceled), every other entry is
looked up unchanged, the root counter and root cancellation state are
untouched, and the call succeeds exactly when the bounded wait on the
named task's private barrier succeeds. -/
theorem stop_only_named_task (gm : GoroutineManager) (n : String) (timeout : Int)
    (reachesZero : Bool) (t : TaskWrapper) (ht : lookupTask gm.tasks n = some t) :
    lookupTask (Stop gm n timeout reachesZero).1.tasks n =
      some { t with childCanceled := true } ∧
    (∀ m, m ≠ n →
      lookupTask (Stop gm n timeout reachesZero).1.tasks m = lookupTask gm.tasks m) ∧
    (Stop gm n timeout reachesZero).1.parentWG = gm.parentWG ∧
    (Stop gm n timeout reachesZero).1.parentCanceled = gm.parentCanceled ∧
    ((Stop gm n timeout reachesZero).2 = none ↔
      WaitGroupWithTimeout (some t.childWG) timeout reachesZero = .waitSuccess) := by
  have hfst : (Stop gm n timeout reachesZero).1 =
      { gm with tasks := insertTask gm.tasks n { t with childCanceled := true } } := by
    simp only [Stop, ht]
    split <;> rfl
  refine ⟨?_, ?_, ?_, ?_, ?_⟩
  · rw [hfst]
    exact lookupTask_insertTask_self gm.tasks n _
  · intro m hm
    rw [hfst]
    exact lookupTask_insertTask_ne gm.tasks n m _ hm
  · rw [hfst]
  · rw [hfst]
  · by_cases hw : WaitGroupWithTimeout (some t.childWG) timeout reachesZero =
        .waitSuccess <;> simp [Stop, ht, hw]

/-- Witness for C7: stopping "a" in the sample manager leaves sibling
"b" exactly as registered. -/
theorem stop_only_named_task_witness :
    lookupTask (Stop gmSample "a" 5 true).1.tasks "b" =
      lookupTask gmSample.tasks "b" :=
  (stop_only_named_task gmSample "a" 5 true ⟨0, false, 1⟩ (by decide)).2.1 "b"
    (by decide)

/-- Claim C10: `Stop(name, timeout)` on an unregistered name returns
success (`nil`) with no cancellation, no wait and no state change —
unlike `Start`, which reports a NotFound error for the same name. -/
theorem stop_unregistered_noop (gm : GoroutineManager) (n : String) (timeout : Int)
    (reachesZero : Bool) (h : lookupTask gm.tasks n = none) :
    Stop gm n timeout reachesZero = (gm, none) ∧
    Start gm n = (gm, [], some (.notFound n)) :=
  ⟨by simp [Stop, h], by simp [Start, h]⟩

/-- Witness for C10 at the unregistered name "c". -/
theorem stop_unregistered_noop_witness :
    Stop gmSample "c" 5 true = (gmSample, none) :=
  (stop_unregistered_noop gmSample "c" 5 true (by decide)).1

end Weblin.Goroutine
